import Mathlib

/-!
Verification of the socketioxide-emitter request encoding and targeting
protocol, shallowly embedded from the Rust sources (src/lib.rs,
src/requests.rs, src/emit.rs).  Types coming from the external
socketioxide-core crate and from the rmp-serde codec are modelled after
their documented behaviour (the spec treats both as external
collaborators): identifiers are random values drawn from an injective
entropy supply, hash sets become finite sets, and the codec is the
MessagePack value model with the compact rmp-serde conventions
(structs as arrays, None as nil).
-/

namespace Emitter

/-- A room name.  Mirrors the Room alias (a string) of socketioxide-core. -/
abbrev Room := String

/-- Session identifier.  In socketioxide-core a Sid is a random 128-bit
identifier; the raw entropy is modelled as a natural number. -/
structure Sid where
  val : Nat
  deriving DecidableEq

/-- Server (node) identifier.  In socketioxide-core a Uid wraps a Sid. -/
structure Uid where
  val : Nat
  deriving DecidableEq

/-- Entropy supply backing the random identifier generators.  Each draw
returns the current counter and advances it, so distinct draws are
distinct: this models a collision-free random source. -/
structure Gen where
  counter : Nat
  deriving DecidableEq

/-- Sid::new() of socketioxide-core: draws a fresh random identifier. -/
def Sid.new (g : Gen) : Sid × Gen :=
  (⟨g.counter⟩, ⟨g.counter + 1⟩)

/-- Uid::new() of socketioxide-core: draws a fresh random identifier. -/
def Uid.new (g : Gen) : Uid × Gen :=
  (⟨g.counter⟩, ⟨g.counter + 1⟩)

/-- BroadcastFlags of socketioxide-core. -/
inductive BroadcastFlags where
  | Broadcast
  | Local
  deriving DecidableEq

/-- BroadcastOptions of socketioxide-core: rooms and excluded rooms are
hash sets (modelled as finite sets), plus execution flags and optional
socket / server identifiers. -/
structure BroadcastOptions where
  rooms : Finset Room
  except : Finset Room
  flags : Finset BroadcastFlags
  sid : Option Sid
  server_id : Option Uid
  deriving DecidableEq

/-- Default::default() for BroadcastOptions: everything empty. -/
def BroadcastOptions.default : BroadcastOptions :=
  ⟨∅, ∅, ∅, none, none⟩

/-- BroadcastOptions::add_flag: inserts a flag into the flag set. -/
def BroadcastOptions.add_flag (o : BroadcastOptions) (f : BroadcastFlags) : BroadcastOptions :=
  { o with flags := insert f o.flags }

/-- An encoded payload value (socketioxide-core Value): either a string
form or a raw binary form, already produced by the payload encoder and
opaque to the envelope. -/
inductive Value where
  | str (s : String)
  | bytes (b : List Nat)
  deriving DecidableEq

/-- The fragment of socketioxide-core PacketData used by the emitter:
an Event carrying the encoded value and an optional ack identifier
(always none here). -/
inductive PacketData where
  | Event (value : Value) (ackId : Option Sid)
  deriving DecidableEq

/-- socketioxide-core Packet: packet data plus the namespace. -/
structure Packet where
  inner : PacketData
  ns : String
  deriving DecidableEq

/-- RequestType from src/requests.rs. -/
inductive RequestType where
  | Broadcast (packet : Packet)
  | DisconnectSockets
  | AddSockets (rooms : List Room)
  | DelSockets (rooms : List Room)
  deriving DecidableEq

/-- RequestType::to_u8 from src/requests.rs: the wire discriminant. -/
def RequestType.to_u8 : RequestType → Nat
  | .Broadcast _ => 0
  | .DisconnectSockets => 2
  | .AddSockets _ => 4
  | .DelSockets _ => 5

/-- Request from src/requests.rs. -/
structure Request where
  node_id : Uid
  id : Sid
  type : RequestType
  opts : BroadcastOptions
  deriving DecidableEq

/-- Request::new from src/requests.rs: draws a fresh node identifier and a
fresh request identifier from the entropy supply on every call. -/
def Request.new (g : Gen) (type : RequestType) (opts : BroadcastOptions) : Request × Gen :=
  let (node_id, g1) := Uid.new g
  let (id, g2) := Sid.new g1
  (⟨node_id, id, type, opts⟩, g2)

/-- RawRequest: the helper record of the manual Serialize impl in
src/requests.rs, with the discriminant as a byte and the two
variant-dependent optional fields. -/
structure RawRequest where
  node_id : Uid
  id : Sid
  type : Nat
  packet : Option Packet
  rooms : Option (List Room)
  opts : BroadcastOptions
  deriving DecidableEq

/-- The body of the Serialize impl for Request in src/requests.rs:
builds the RawRequest, branching once on the variant tag. -/
def Request.toRaw (r : Request) : RawRequest :=
  { node_id := r.node_id
    id := r.id
    type := r.type.to_u8
    packet := match r.type with
      | RequestType.Broadcast p => some p
      | _ => none
    rooms := match r.type with
      | RequestType.AddSockets rs => some rs
      | RequestType.DelSockets rs => some rs
      | _ => none
    opts := r.opts }

/-- MessagePack value model (the serde data model as rmp-serde maps it). -/
inductive Msg where
  | nil
  | bool (b : Bool)
  | uint (n : Nat)
  | str (s : String)
  | bin (b : List Nat)
  | arr (xs : List Msg)

/-- UTF-8 encoding of a single character, as natural numbers. -/
def utf8EncodeCharNat (c : Char) : List Nat :=
  let n := c.toNat
  if n < 128 then [n]
  else if n < 2048 then [192 + n / 64, 128 + n % 64]
  else if n < 65536 then [224 + n / 4096, 128 + n / 64 % 64, 128 + n % 64]
  else [240 + n / 262144, 128 + n / 4096 % 64, 128 + n / 64 % 64, 128 + n % 64]

/-- UTF-8 bytes of a string, as natural numbers. -/
def utf8Bytes (s : String) : List Nat :=
  s.data.foldr (fun c acc => utf8EncodeCharNat c ++ acc) []

/-- Big-endian byte decomposition, k bytes. -/
def beBytes (k n : Nat) : List Nat :=
  (List.range k).reverse.map (fun i => n / 256 ^ i % 256)

/-- MessagePack encoding of a string: fixstr / str8 / str16 / str32;
fails beyond the str32 limit. -/
def encodeStr (s : String) : Option (List Nat) :=
  if (utf8Bytes s).length < 32 then some ((160 + (utf8Bytes s).length) :: utf8Bytes s)
  else if (utf8Bytes s).length < 256 then some (217 :: (utf8Bytes s).length :: utf8Bytes s)
  else if (utf8Bytes s).length < 2 ^ 16 then
    some (218 :: (beBytes 2 (utf8Bytes s).length ++ utf8Bytes s))
  else if (utf8Bytes s).length < 2 ^ 32 then
    some (219 :: (beBytes 4 (utf8Bytes s).length ++ utf8Bytes s))
  else none

/-- MessagePack encoding of an unsigned integer, most compact form. -/
def encodeUint (n : Nat) : Option (List Nat) :=
  if n < 128 then some [n]
  else if n < 256 then some [204, n]
  else if n < 2 ^ 16 then some (205 :: beBytes 2 n)
  else if n < 2 ^ 32 then some (206 :: beBytes 4 n)
  else if n < 2 ^ 64 then some (207 :: beBytes 8 n)
  else none

/-- MessagePack array header: fixarray / array16 / array32. -/
def encodeArrHeader (len : Nat) : Option (List Nat) :=
  if len < 16 then some [144 + len]
  else if len < 2 ^ 16 then some (220 :: beBytes 2 len)
  else if len < 2 ^ 32 then some (221 :: beBytes 4 len)
  else none

/-- MessagePack bin header: bin8 / bin16 / bin32. -/
def encodeBinHeader (len : Nat) : Option (List Nat) :=
  if len < 256 then some [196, len]
  else if len < 2 ^ 16 then some (197 :: beBytes 2 len)
  else if len < 2 ^ 32 then some (198 :: beBytes 4 len)
  else none

mutual

/-- MessagePack byte encoding of a value; fails only when a length
exceeds the format limits. -/
def Msg.encode : Msg → Option (List Nat)
  | .nil => some [192]
  | .bool b => some [if b then 195 else 194]
  | .uint n => encodeUint n
  | .str s => encodeStr s
  | .bin b => (encodeBinHeader b.length).map (fun h => h ++ b)
  | .arr xs =>
    Option.bind (encodeArrHeader xs.length) (fun h => (Msg.encodeList xs).map (fun l => h ++ l))

/-- Concatenated encodings of a list of values. -/
def Msg.encodeList : List Msg → Option (List Nat)
  | [] => some []
  | x :: xs =>
    Option.bind (Msg.encode x) (fun hd => (Msg.encodeList xs).map (fun tl => hd ++ tl))

end

/-- socketioxide-core serializes a Sid as its display string. -/
def Sid.toMsg (s : Sid) : Msg := Msg.str (toString s.val)

/-- socketioxide-core serializes a Uid as its display string. -/
def Uid.toMsg (u : Uid) : Msg := Msg.str (toString u.val)

/-- rmp-serde convention for Option fields: None is nil, Some is the
value itself. -/
def optToMsg {α : Type} (f : α → Msg) : Option α → Msg
  | none => Msg.nil
  | some a => f a

/-- Serde form of a Value. -/
def Value.toMsg : Value → Msg
  | .str s => Msg.str s
  | .bytes b => Msg.bin b

/-- Serde form of the packet data fragment. -/
def PacketData.toMsg : PacketData → Msg
  | .Event v ack => Msg.arr [Value.toMsg v, optToMsg Sid.toMsg ack]

/-- Serde form of a Packet (struct as array). -/
def Packet.toMsg (p : Packet) : Msg :=
  Msg.arr [PacketData.toMsg p.inner, Msg.str p.ns]

/-- Serde form of a hash set of rooms: a sequence of its elements.  The
iteration order of a hash set is unspecified; the model fixes the
canonical sorted order. -/
def roomsMsg (rs : Finset Room) : Msg :=
  Msg.arr ((rs.sort (· ≤ ·)).map Msg.str)

/-- Serde form of a broadcast flag (unit variant as its name). -/
def BroadcastFlags.toMsg : BroadcastFlags → Msg
  | .Broadcast => Msg.str "Broadcast"
  | .Local => Msg.str "Local"

/-- Serde form of the flag set, in a fixed canonical order. -/
def flagsMsg (fs : Finset BroadcastFlags) : Msg :=
  Msg.arr ((if BroadcastFlags.Broadcast ∈ fs then [BroadcastFlags.toMsg BroadcastFlags.Broadcast] else []) ++
    (if BroadcastFlags.Local ∈ fs then [BroadcastFlags.toMsg BroadcastFlags.Local] else []))

/-- Serde form of BroadcastOptions (derived Serialize, struct as array). -/
def BroadcastOptions.toMsg (o : BroadcastOptions) : Msg :=
  Msg.arr [roomsMsg o.rooms, roomsMsg o.except, flagsMsg o.flags,
    optToMsg Sid.toMsg o.sid, optToMsg Uid.toMsg o.server_id]

/-- Serde form of the RawRequest of src/requests.rs: a six-field record
serialized as an array, in declaration order, with None fields as nil. -/
def RawRequest.toMsg (r : RawRequest) : Msg :=
  Msg.arr [Uid.toMsg r.node_id, Sid.toMsg r.id, Msg.uint r.type,
    optToMsg Packet.toMsg r.packet,
    optToMsg (fun rs => Msg.arr (rs.map Msg.str)) r.rooms,
    BroadcastOptions.toMsg r.opts]

/-- rmp_serde::to_vec applied to a Request through its Serialize impl. -/
def rmpToVec (r : Request) : Option (List Nat) :=
  Msg.encode (RawRequest.toMsg (Request.toRaw r))

/-- The available parsers from src/emit.rs (both features enabled). -/
inductive Parser where
  | Common
  | MsgPack
  deriving DecidableEq

/-- Parser::default(): the common parser. -/
def Parser.default : Parser := Parser.Common

/-- A parser error (socketioxide-core ParserError, opaque here). -/
inductive ParserError where
  | err (msg : String)
  deriving DecidableEq

/-- EmitError from src/emit.rs: a driver error or a parser error. -/
inductive EmitError (ε : Type) where
  | Driver (e : ε)
  | Parser (e : ParserError)
  deriving DecidableEq

/-- IoEmitter from src/lib.rs.  The Rust field named after the channel
prefix keyword is called prefixOpt here because the original name is a
reserved Lean keyword. -/
structure IoEmitter where
  opts : BroadcastOptions
  ns : String
  prefixOpt : Option String
  parser : Parser
  deriving DecidableEq

/-- Default for IoEmitter from src/lib.rs: default options with the
Broadcast flag added, namespace /, no channel prefix, default parser. -/
def IoEmitter.default : IoEmitter :=
  let io : IoEmitter :=
    { opts := BroadcastOptions.default, ns := "/", prefixOpt := none, parser := Parser.default }
  { io with opts := BroadcastOptions.add_flag io.opts BroadcastFlags.Broadcast }

/-- IoEmitter::new from src/lib.rs. -/
def IoEmitter.new : IoEmitter := IoEmitter.default

/-- IoEmitter::of from src/lib.rs: replaces the namespace. -/
def IoEmitter.of (e : IoEmitter) (ns : String) : IoEmitter :=
  { e with ns := ns }

/-- IoEmitter::to from src/lib.rs: extends the inclusion room set. -/
def IoEmitter.to (e : IoEmitter) (rooms : List Room) : IoEmitter :=
  { e with opts := { e.opts with rooms := e.opts.rooms ∪ rooms.toFinset } }

/-- IoEmitter::within from src/lib.rs: alias for to. -/
def IoEmitter.within (e : IoEmitter) (rooms : List Room) : IoEmitter :=
  e.to rooms

/-- IoEmitter::except from src/lib.rs: extends the exclusion room set. -/
def IoEmitter.except (e : IoEmitter) (rooms : List Room) : IoEmitter :=
  { e with opts := { e.opts with except := e.opts.except ∪ rooms.toFinset } }

/-- The channel prefix setter of src/lib.rs: replaces the prefix. -/
def IoEmitter.prefixSet (e : IoEmitter) (p : String) : IoEmitter :=
  { e with prefixOpt := some p }

/-- IoEmitter::get_channel from src/lib.rs. -/
def IoEmitter.get_channel (e : IoEmitter) : String :=
  (e.prefixOpt.getD "socket.io") ++ "-request#" ++ e.ns ++ "#"

/-- serialize from src/lib.rs: builds a fresh Request and encodes it.
The result is an Option because the codec has format limits; the unwrap
in the source is modelled at the use sites. -/
def serialize (g : Gen) (opts : BroadcastOptions) (req_type : RequestType) : Option (List Nat) :=
  rmpToVec (Request.new g req_type opts).1

/-- The .unwrap() on the codec result in serialize of src/lib.rs. -/
def serializeUnwrap (g : Gen) (opts : BroadcastOptions) (req_type : RequestType) : List Nat :=
  (serialize g opts req_type).getD []

/-- The injected transport capability: publish bytes to a channel. -/
abbrev DriverFn (ε : Type) := String → List Nat → Except ε Unit

/-- One recorded invocation of the transport capability. -/
structure DriverCall where
  channel : String
  data : List Nat
  deriving DecidableEq

/-- IoEmitter::join from src/lib.rs.  The second component is the trace
of transport invocations performed by the call. -/
def IoEmitter.join {ε : Type} (e : IoEmitter) (rooms : List Room) (driver : DriverFn ε)
    (g : Gen) : Except ε Unit × List DriverCall :=
  let chan := e.get_channel
  let data := serializeUnwrap g e.opts (RequestType.AddSockets rooms)
  (driver chan data, [⟨chan, data⟩])

/-- IoEmitter::leave from src/lib.rs, with the transport trace. -/
def IoEmitter.leave {ε : Type} (e : IoEmitter) (rooms : List Room) (driver : DriverFn ε)
    (g : Gen) : Except ε Unit × List DriverCall :=
  let chan := e.get_channel
  let data := serializeUnwrap g e.opts (RequestType.DelSockets rooms)
  (driver chan data, [⟨chan, data⟩])

/-- IoEmitter::disconnect from src/lib.rs, with the transport trace. -/
def IoEmitter.disconnect {ε : Type} (e : IoEmitter) (driver : DriverFn ε)
    (g : Gen) : Except ε Unit × List DriverCall :=
  let chan := e.get_channel
  let data := serializeUnwrap g e.opts RequestType.DisconnectSockets
  (driver chan data, [⟨chan, data⟩])

/-- A pluggable payload encoder: message and optional event name to an
encoded value or a parser error. -/
abbrev EncodeFn (α : Type) := α → Option String → Except ParserError Value

/-- The parser dispatch inside IoEmitter::emit of src/lib.rs: the two
external parser crates are passed in as encoding functions. -/
def IoEmitter.encodeValue {α : Type} (e : IoEmitter) (commonEnc msgpackEnc : EncodeFn α)
    (msg : α) (event : String) : Except ParserError Value :=
  match e.parser with
  | Parser.Common => commonEnc msg (some event)
  | Parser.MsgPack => msgpackEnc msg (some event)

/-- IoEmitter::emit from src/lib.rs: encode the payload first; on failure
return a Parser error with no transport call; otherwise build the packet,
serialize the Broadcast request and publish it.  The second component is
the trace of transport invocations. -/
def IoEmitter.emit {α ε : Type} (e : IoEmitter) (commonEnc msgpackEnc : EncodeFn α)
    (event : String) (msg : α) (driver : DriverFn ε) (g : Gen) :
    Except (EmitError ε) Unit × List DriverCall :=
  match e.encodeValue commonEnc msgpackEnc msg event with
  | Except.error e2 => (Except.error (EmitError.Parser e2), [])
  | Except.ok value =>
    let chan := e.get_channel
    let packet : Packet := { inner := PacketData.Event value none, ns := e.ns }
    let data := serializeUnwrap g e.opts (RequestType.Broadcast packet)
    ((driver chan data).mapError EmitError.Driver, [⟨chan, data⟩])

/-- A string fits in a MessagePack str32. -/
def strOk (s : String) : Bool :=
  decide ((utf8Bytes s).length < 2 ^ 32)

/-- The serialized form of a Sid fits the codec limits. -/
def Sid.ok (s : Sid) : Bool :=
  strOk (toString s.val)

/-- The serialized form of a Uid fits the codec limits. -/
def Uid.ok (u : Uid) : Bool :=
  strOk (toString u.val)

/-- The next two identifiers drawn from the supply serialize within the
codec limits. -/
def Gen.ok (g : Gen) : Bool :=
  strOk (toString g.counter) && strOk (toString (g.counter + 1))

/-- A room set fits in a MessagePack array32 of str32 strings. -/
def roomFinsetOk (rs : Finset Room) : Bool :=
  decide (rs.card < 2 ^ 32) && (rs.sort (· ≤ ·)).all strOk

/-- Well-formed targeting options: every collection and string fits the
codec limits. -/
def BroadcastOptions.ok (o : BroadcastOptions) : Bool :=
  roomFinsetOk o.rooms && roomFinsetOk o.except &&
    (match o.sid with
     | none => true
     | some s => Sid.ok s) &&
    (match o.server_id with
     | none => true
     | some u => Uid.ok u)

/-- Well-formed encoded value. -/
def Value.ok : Value → Bool
  | .str s => strOk s
  | .bytes b => decide (b.length < 2 ^ 32)

/-- Well-formed packet data. -/
def PacketData.ok : PacketData → Bool
  | .Event v ack =>
    Value.ok v &&
      (match ack with
       | none => true
       | some s => Sid.ok s)

/-- Well-formed packet. -/
def Packet.ok (p : Packet) : Bool :=
  PacketData.ok p.inner && strOk p.ns

/-- Well-formed request kind: the carried data fits the codec limits. -/
def RequestType.ok : RequestType → Bool
  | .Broadcast p => Packet.ok p
  | .DisconnectSockets => true
  | .AddSockets rs => decide (rs.length < 2 ^ 32) && rs.all strOk
  | .DelSockets rs => decide (rs.length < 2 ^ 32) && rs.all strOk

mutual

/-- A MessagePack value whose every length fits the format limits. -/
def Msg.ok : Msg → Bool
  | .nil => true
  | .bool _ => true
  | .uint n => decide (n < 2 ^ 64)
  | .str s => strOk s
  | .bin b => decide (b.length < 2 ^ 32)
  | .arr xs => decide (xs.length < 2 ^ 32) && Msg.okList xs

/-- All values in the list fit the format limits. -/
def Msg.okList : List Msg → Bool
  | [] => true
  | x :: xs => Msg.ok x && Msg.okList xs

end

theorem encodeStr_isSome (s : String) (h : strOk s = true) : (encodeStr s).isSome = true := by
  have h2 : (utf8Bytes s).length < 2 ^ 32 := by simpa [strOk] using h
  unfold encodeStr
  split_ifs <;> simp_all

theorem encodeUint_isSome (n : Nat) (h : n < 2 ^ 64) : (encodeUint n).isSome = true := by
  unfold encodeUint
  split_ifs <;> simp_all

theorem encodeArrHeader_isSome (len : Nat) (h : len < 2 ^ 32) :
    (encodeArrHeader len).isSome = true := by
  unfold encodeArrHeader
  split_ifs <;> simp_all

theorem encodeBinHeader_isSome (len : Nat) (h : len < 2 ^ 32) :
    (encodeBinHeader len).isSome = true := by
  unfold encodeBinHeader
  split_ifs <;> simp_all

mutual

theorem Msg.encode_isSome : (m : Msg) → Msg.ok m = true → (Msg.encode m).isSome = true
  | .nil, _ => rfl
  | .bool b, _ => by cases b <;> rfl
  | .uint n, h => by
    have h2 : n < 2 ^ 64 := by simpa [Msg.ok] using h
    simpa [Msg.encode] using encodeUint_isSome n h2
  | .str s, h => by
    have h2 : strOk s = true := by simpa [Msg.ok] using h
    simpa [Msg.encode] using encodeStr_isSome s h2
  | .bin b, h => by
    have h2 : b.length < 2 ^ 32 := by simpa [Msg.ok] using h
    have h3 := encodeBinHeader_isSome b.length h2
    obtain ⟨hd, hhd⟩ := Option.isSome_iff_exists.mp h3
    simp [Msg.encode, hhd]
  | .arr xs, h => by
    have h2 : xs.length < 2 ^ 32 ∧ Msg.okList xs = true := by
      simpa [Msg.ok, Bool.and_eq_true] using h
    have h3 := encodeArrHeader_isSome xs.length h2.1
    have h4 := Msg.encodeList_isSome xs h2.2
    obtain ⟨hd, hhd⟩ := Option.isSome_iff_exists.mp h3
    obtain ⟨tl, htl⟩ := Option.isSome_iff_exists.mp h4
    simp [Msg.encode, hhd, htl]

theorem Msg.encodeList_isSome : (xs : List Msg) → Msg.okList xs = true → (Msg.encodeList xs).isSome = true
  | [], _ => rfl
  | x :: xs, h => by
    have h2 : Msg.ok x = true ∧ Msg.okList xs = true := by
      simpa [Msg.okList, Bool.and_eq_true] using h
    have h3 := Msg.encode_isSome x h2.1
    have h4 := Msg.encodeList_isSome xs h2.2
    obtain ⟨hd, hhd⟩ := Option.isSome_iff_exists.mp h3
    obtain ⟨tl, htl⟩ := Option.isSome_iff_exists.mp h4
    simp [Msg.encodeList, hhd, htl]

end

theorem okList_map_str (l : List String) (h : l.all strOk = true) :
    Msg.okList (l.map Msg.str) = true := by
  induction l with
  | nil => rfl
  | cons x xs ih =>
    simp only [List.all_cons, Bool.and_eq_true] at h
    simp [Msg.okList, Msg.ok, h.1, ih h.2]

theorem roomsMsg_ok (rs : Finset Room) (h : roomFinsetOk rs = true) :
    Msg.ok (roomsMsg rs) = true := by
  simp only [roomFinsetOk, Bool.and_eq_true, decide_eq_true_eq] at h
  simp only [roomsMsg, Msg.ok, Bool.and_eq_true, decide_eq_true_eq]
  refine ⟨?_, okList_map_str _ h.2⟩
  simpa [Finset.length_sort] using h.1

theorem flagsMsg_ok (fs : Finset BroadcastFlags) : Msg.ok (flagsMsg fs) = true := by
  unfold flagsMsg
  split_ifs <;> rfl

theorem sid_msg_ok (s : Sid) (h : Sid.ok s = true) : Msg.ok (Sid.toMsg s) = true := by
  simpa [Sid.toMsg, Msg.ok, Sid.ok] using h

theorem uid_msg_ok (u : Uid) (h : Uid.ok u = true) : Msg.ok (Uid.toMsg u) = true := by
  simpa [Uid.toMsg, Msg.ok, Uid.ok] using h

theorem opt_sid_msg_ok (o : Option Sid)
    (h : (match o with | none => true | some s => Sid.ok s) = true) :
    Msg.ok (optToMsg Sid.toMsg o) = true := by
  cases o with
  | none => rfl
  | some s => exact sid_msg_ok s h

theorem opt_uid_msg_ok (o : Option Uid)
    (h : (match o with | none => true | some u => Uid.ok u) = true) :
    Msg.ok (optToMsg Uid.toMsg o) = true := by
  cases o with
  | none => rfl
  | some u => exact uid_msg_ok u h

theorem broadcastOptions_msg_ok (o : BroadcastOptions) (h : o.ok = true) :
    Msg.ok (BroadcastOptions.toMsg o) = true := by
  simp only [BroadcastOptions.ok, Bool.and_eq_true] at h
  obtain ⟨⟨⟨h1, h2⟩, h3⟩, h4⟩ := h
  simp only [BroadcastOptions.toMsg, Msg.ok, Msg.okList, Bool.and_eq_true, decide_eq_true_eq]
  refine ⟨by norm_num, roomsMsg_ok _ h1, roomsMsg_ok _ h2, flagsMsg_ok _,
    opt_sid_msg_ok _ h3, opt_uid_msg_ok _ h4, trivial⟩

theorem value_msg_ok (v : Value) (h : Value.ok v = true) : Msg.ok (Value.toMsg v) = true := by
  cases v <;> simpa [Value.toMsg, Msg.ok, Value.ok] using h

theorem packetData_msg_ok (pd : PacketData) (h : PacketData.ok pd = true) :
    Msg.ok (PacketData.toMsg pd) = true := by
  cases pd with
  | Event v ack =>
    simp only [PacketData.ok, Bool.and_eq_true] at h
    simp only [PacketData.toMsg, Msg.ok, Msg.okList, Bool.and_eq_true, decide_eq_true_eq]
    exact ⟨by norm_num, value_msg_ok v h.1, opt_sid_msg_ok ack h.2, trivial⟩

theorem packet_msg_ok (p : Packet) (h : Packet.ok p = true) : Msg.ok (Packet.toMsg p) = true := by
  simp only [Packet.ok, Bool.and_eq_true] at h
  simp only [Packet.toMsg, Msg.ok, Msg.okList, Bool.and_eq_true, decide_eq_true_eq]
  exact ⟨by norm_num, packetData_msg_ok _ h.1, by simpa [Msg.ok] using h.2, trivial⟩

theorem to_u8_lt (t : RequestType) : RequestType.to_u8 t < 2 ^ 64 := by
  cases t <;> simp [RequestType.to_u8]

theorem request_msg_ok (g : Gen) (opts : BroadcastOptions) (t : RequestType)
    (hg : Gen.ok g = true) (ho : BroadcastOptions.ok opts = true) (ht : RequestType.ok t = true) :
    Msg.ok (RawRequest.toMsg (Request.toRaw (Request.new g t opts).1)) = true := by
  simp only [Gen.ok, Bool.and_eq_true] at hg
  have hopts := broadcastOptions_msg_ok opts ho
  cases t with
  | Broadcast p =>
    have hp := packet_msg_ok p (by simpa [RequestType.ok] using ht)
    simp [Request.new, Uid.new, Sid.new, Request.toRaw, RawRequest.toMsg, Msg.ok, Msg.okList,
      optToMsg, Uid.toMsg, Sid.toMsg, RequestType.to_u8, hg.1, hg.2, hopts, hp]
    exact ⟨hp, hopts⟩
  | DisconnectSockets =>
    simp [Request.new, Uid.new, Sid.new, Request.toRaw, RawRequest.toMsg, Msg.ok, Msg.okList,
      optToMsg, Uid.toMsg, Sid.toMsg, RequestType.to_u8, hg.1, hg.2, hopts]
    exact hopts
  | AddSockets rs =>
    simp only [RequestType.ok, Bool.and_eq_true, decide_eq_true_eq] at ht
    have hl := okList_map_str rs ht.2
    simp [Request.new, Uid.new, Sid.new, Request.toRaw, RawRequest.toMsg, Msg.ok, Msg.okList,
      optToMsg, Uid.toMsg, Sid.toMsg, RequestType.to_u8, hg.1, hg.2, hopts, hl, ht.1]
    exact ⟨by simpa using ht.1, hopts⟩
  | DelSockets rs =>
    simp only [RequestType.ok, Bool.and_eq_true, decide_eq_true_eq] at ht
    have hl := okList_map_str rs ht.2
    simp [Request.new, Uid.new, Sid.new, Request.toRaw, RawRequest.toMsg, Msg.ok, Msg.okList,
      optToMsg, Uid.toMsg, Sid.toMsg, RequestType.to_u8, hg.1, hg.2, hopts, hl, ht.1]
    exact ⟨by simpa using ht.1, hopts⟩

/-- Claim C1: for every RequestType variant, the discriminant encoded in
the serialized request equals the fixed code table (Broadcast 0,
DisconnectSockets 2, AddSockets 4, DelSockets 5), the discriminant sits
as a plain byte in the third field of the serialized record, and the
values 1 and 3 are never produced. -/
theorem C1_discriminant_table (g : Gen) (opts : BroadcastOptions) (t : RequestType) :
    (∃ a b c d e2, RawRequest.toMsg (Request.toRaw (Request.new g t opts).1)
      = Msg.arr [a, b, Msg.uint (RequestType.to_u8 t), c, d, e2])
    ∧ Msg.encode (Msg.uint (RequestType.to_u8 t)) = some [RequestType.to_u8 t]
    ∧ (∀ p, RequestType.to_u8 (RequestType.Broadcast p) = 0)
    ∧ RequestType.to_u8 RequestType.DisconnectSockets = 2
    ∧ (∀ rs, RequestType.to_u8 (RequestType.AddSockets rs) = 4)
    ∧ (∀ rs, RequestType.to_u8 (RequestType.DelSockets rs) = 5)
    ∧ RequestType.to_u8 t ≠ 1 ∧ RequestType.to_u8 t ≠ 3 := by
  refine ⟨⟨_, _, _, _, _, rfl⟩, ?_, fun p => rfl, rfl, fun rs => rfl, fun rs => rfl, ?_, ?_⟩ <;>
    cases t <;> first | rfl | simp [RequestType.to_u8]

/-- Claim C2, counterexample: the serialized form of a DisconnectSockets
request still materializes the packet and rooms fields, as MessagePack
nil placeholders inside a fixed six-element record (bytes 192 at the two
positions after the discriminant byte 2), so absent fields ARE present
in the serialized form, merely encoded as nil. -/
theorem C2_counterexample :
    RawRequest.toMsg (Request.toRaw
      (Request.new ⟨0⟩ RequestType.DisconnectSockets BroadcastOptions.default).1)
      = Msg.arr [Msg.str "0", Msg.str "1", Msg.uint 2, Msg.nil, Msg.nil,
          Msg.arr [Msg.arr [], Msg.arr [], Msg.arr [], Msg.nil, Msg.nil]]
    ∧ serialize ⟨0⟩ BroadcastOptions.default RequestType.DisconnectSockets
      = some [150, 161, 48, 161, 49, 2, 192, 192, 149, 144, 144, 144, 192, 192] := by
  have h1 : RawRequest.toMsg (Request.toRaw
      (Request.new ⟨0⟩ RequestType.DisconnectSockets BroadcastOptions.default).1)
      = Msg.arr [Msg.str "0", Msg.str "1", Msg.uint 2, Msg.nil, Msg.nil,
          Msg.arr [Msg.arr [], Msg.arr [], Msg.arr [], Msg.nil, Msg.nil]] := by
    simp only [RawRequest.toMsg, Request.toRaw, Request.new, Uid.new, Sid.new, Uid.toMsg,
      Sid.toMsg, optToMsg, BroadcastOptions.toMsg, BroadcastOptions.default, roomsMsg, flagsMsg,
      Finset.sort_empty, RequestType.to_u8]
    rfl
  refine ⟨h1, ?_⟩
  unfold serialize rmpToVec
  rw [h1]
  rfl

/-- Claim C2, amended: the set of fields carrying a value in the
serialized request is fully determined by the variant tag (the packet
field carries a value exactly for Broadcast, the rooms field exactly for
AddSockets or DelSockets, never both), but absent fields are still
present in the serialized record as nil placeholders: the envelope is
always the same six-field array. -/
theorem C2_fields_determined_by_tag (g : Gen) (opts : BroadcastOptions) (t : RequestType) :
    ((Request.toRaw (Request.new g t opts).1).packet.isSome = true
      ↔ ∃ p, t = RequestType.Broadcast p)
    ∧ ((Request.toRaw (Request.new g t opts).1).rooms.isSome = true
      ↔ (∃ rs, t = RequestType.AddSockets rs) ∨ (∃ rs, t = RequestType.DelSockets rs))
    ∧ ¬((Request.toRaw (Request.new g t opts).1).packet.isSome = true
      ∧ (Request.toRaw (Request.new g t opts).1).rooms.isSome = true)
    ∧ RawRequest.toMsg (Request.toRaw (Request.new g t opts).1)
      = Msg.arr [Uid.toMsg (Request.new g t opts).1.node_id,
          Sid.toMsg (Request.new g t opts).1.id,
          Msg.uint (RequestType.to_u8 t),
          optToMsg Packet.toMsg (Request.toRaw (Request.new g t opts).1).packet,
          optToMsg (fun rs => Msg.arr (rs.map Msg.str))
            (Request.toRaw (Request.new g t opts).1).rooms,
          BroadcastOptions.toMsg opts] := by
  cases t <;>
    simp [Request.toRaw, Request.new, Uid.new, Sid.new, RawRequest.toMsg, RequestType.to_u8,
      optToMsg]

/-- Claim C3: channel derivation is a pure function of the prefix and the
namespace only, producing the prefixed request channel with default
prefix socket.io; on the default builder it yields
socket.io-request#/#, and with prefix custom and namespace /admin it
yields custom-request#/admin#. -/
theorem C3_channel_pure :
    (∀ e : IoEmitter,
      IoEmitter.get_channel e = (Option.getD e.prefixOpt "socket.io") ++ "-request#" ++ e.ns ++ "#")
    ∧ (∀ (o1 o2 : BroadcastOptions) (pr1 pr2 : Parser) (p : Option String) (n : String),
      IoEmitter.get_channel ⟨o1, n, p, pr1⟩ = IoEmitter.get_channel ⟨o2, n, p, pr2⟩)
    ∧ (∀ (e : IoEmitter) (rooms : List Room),
      IoEmitter.get_channel (e.to rooms) = IoEmitter.get_channel e)
    ∧ (∀ (e : IoEmitter) (rooms : List Room),
      IoEmitter.get_channel (IoEmitter.except e rooms) = IoEmitter.get_channel e)
    ∧ IoEmitter.get_channel IoEmitter.default = "socket.io-request#/#"
    ∧ IoEmitter.get_channel ((IoEmitter.default.of "/admin").prefixSet "custom")
      = "custom-request#/admin#" :=
  ⟨fun _ => rfl, fun _ _ _ _ _ _ => rfl, fun _ _ => rfl, fun _ _ => rfl, rfl, rfl⟩

/-- Claim C4: if the payload encoder fails, emit returns a Parser-kind
error and the injected transport capability is never invoked (the
transport trace is empty). -/
theorem C4_parser_error_skips_transport {α ε : Type} (e : IoEmitter)
    (commonEnc msgpackEnc : EncodeFn α) (event : String) (msg : α) (driver : DriverFn ε)
    (g : Gen) (perr : ParserError)
    (h : IoEmitter.encodeValue e commonEnc msgpackEnc msg event = Except.error perr) :
    IoEmitter.emit e commonEnc msgpackEnc event msg driver g
      = (Except.error (EmitError.Parser perr), []) := by
  unfold IoEmitter.emit
  rw [h]

/-- Witness for C4: a concrete failing encoder on the default builder
yields the Parser error and an empty transport trace. -/
theorem C4_witness :
    IoEmitter.encodeValue (α := Unit) IoEmitter.default
        (fun _ _ => Except.error (ParserError.err "boom"))
        (fun _ _ => Except.ok (Value.str "x")) () "ev"
      = Except.error (ParserError.err "boom")
    ∧ IoEmitter.emit (α := Unit) (ε := Unit) IoEmitter.default
        (fun _ _ => Except.error (ParserError.err "boom"))
        (fun _ _ => Except.ok (Value.str "x")) "ev" ()
        (fun _ _ => Except.ok ()) ⟨0⟩
      = (Except.error (EmitError.Parser (ParserError.err "boom")), []) :=
  ⟨rfl, C4_parser_error_skips_transport IoEmitter.default _ _ "ev" () _ ⟨0⟩ _ rfl⟩

/-- Claim C5: to accumulates rooms into the inclusion set by union (never
replacement), within is extensionally equal to to, and except accumulates
into the exclusion set the same way. -/
theorem C5_room_accumulation :
    (∀ (e : IoEmitter) (a b : List Room),
      ((e.to a).to b).opts.rooms = e.opts.rooms ∪ a.toFinset ∪ b.toFinset)
    ∧ (∀ (e : IoEmitter) (a : List Room), (e.to a).opts.rooms = e.opts.rooms ∪ a.toFinset)
    ∧ (∀ (e : IoEmitter) (r : List Room), e.within r = e.to r)
    ∧ (∀ (e : IoEmitter) (a b : List Room),
      (IoEmitter.except (IoEmitter.except e a) b).opts.except
        = e.opts.except ∪ a.toFinset ∪ b.toFinset)
    ∧ (∀ (e : IoEmitter) (a : List Room),
      (IoEmitter.except e a).opts.except = e.opts.except ∪ a.toFinset) :=
  ⟨fun _ _ _ => rfl, fun _ _ => rfl, fun _ _ => rfl, fun _ _ _ => rfl, fun _ _ => rfl⟩

/-- Claim C6: for every well-formed envelope (its strings and collections
fit the MessagePack format limits), serialization is total: it returns a
byte vector and the internal unwrap of the codec result cannot panic. -/
theorem C6_serialize_total (g : Gen) (opts : BroadcastOptions) (t : RequestType)
    (hg : Gen.ok g = true) (ho : BroadcastOptions.ok opts = true)
    (ht : RequestType.ok t = true) :
    (serialize g opts t).isSome = true
    ∧ serialize g opts t = some (serializeUnwrap g opts t) := by
  have h : (serialize g opts t).isSome = true := by
    unfold serialize rmpToVec
    exact Msg.encode_isSome _ (request_msg_ok g opts t hg ho ht)
  refine ⟨h, ?_⟩
  unfold serializeUnwrap
  cases hv : serialize g opts t with
  | none => rw [hv] at h; simp at h
  | some v => rfl

/-- Witness for C6 at a concrete well-formed envelope. -/
theorem C6_witness :
    Gen.ok ⟨0⟩ = true
    ∧ BroadcastOptions.ok BroadcastOptions.default = true
    ∧ RequestType.ok (RequestType.AddSockets ["room1"]) = true
    ∧ ((serialize ⟨0⟩ BroadcastOptions.default (RequestType.AddSockets ["room1"])).isSome = true
      ∧ serialize ⟨0⟩ BroadcastOptions.default (RequestType.AddSockets ["room1"])
        = some (serializeUnwrap ⟨0⟩ BroadcastOptions.default
            (RequestType.AddSockets ["room1"]))) := by
  have hg : Gen.ok ⟨0⟩ = true := by rfl
  have ho : BroadcastOptions.ok BroadcastOptions.default = true := by
    simp [BroadcastOptions.ok, BroadcastOptions.default, roomFinsetOk, Finset.sort_empty]
  have ht : RequestType.ok (RequestType.AddSockets ["room1"]) = true := by rfl
  exact ⟨hg, ho, ht, C6_serialize_total ⟨0⟩ BroadcastOptions.default
    (RequestType.AddSockets ["room1"]) hg ho ht⟩

/-- Claim C7, counterexample: two successive requests produced by the same
process (the entropy supply threaded from one terminal call to the next)
carry different node identifiers, so node_id is not a per-process
constant. -/
theorem C7_counterexample :
    (Request.new ⟨0⟩ RequestType.DisconnectSockets BroadcastOptions.default).1.node_id
      ≠ (Request.new
          (Request.new ⟨0⟩ RequestType.DisconnectSockets BroadcastOptions.default).2
          RequestType.DisconnectSockets BroadcastOptions.default).1.node_id := by
  decide

/-- Claim C7, amended: every envelope is created fresh per terminal call
with exactly the requested kind and options, and both node_id and
request id are freshly drawn random identifiers per request: distinct
from each other and from the identifiers of the next request. -/
theorem C7_fresh_identifiers (g : Gen) (t t2 : RequestType) (o o2 : BroadcastOptions) :
    (Request.new g t o).1.type = t
    ∧ (Request.new g t o).1.opts = o
    ∧ (Request.new g t o).1.node_id.val ≠ (Request.new g t o).1.id.val
    ∧ (Request.new g t o).1.node_id ≠ (Request.new (Request.new g t o).2 t2 o2).1.node_id
    ∧ (Request.new g t o).1.id ≠ (Request.new (Request.new g t o).2 t2 o2).1.id := by
  refine ⟨rfl, rfl, ?_, ?_, ?_⟩
  all_goals simp [Request.new, Uid.new, Sid.new, Uid.mk.injEq, Sid.mk.injEq]
  omega

/-- Claim C8: join builds an AddSockets request carrying the rooms in
argument order, leave builds a DelSockets request the same way,
disconnect builds a DisconnectSockets request; each hands the routed
channel and the serialized bytes to the transport exactly once and
returns the transport outcome as-is. -/
theorem C8_terminal_requests {ε : Type} (e : IoEmitter) (rooms : List Room)
    (driver : DriverFn ε) (g : Gen) :
    IoEmitter.join e rooms driver g
      = (driver (IoEmitter.get_channel e)
          (serializeUnwrap g e.opts (RequestType.AddSockets rooms)),
        [⟨IoEmitter.get_channel e, serializeUnwrap g e.opts (RequestType.AddSockets rooms)⟩])
    ∧ IoEmitter.leave e rooms driver g
      = (driver (IoEmitter.get_channel e)
          (serializeUnwrap g e.opts (RequestType.DelSockets rooms)),
        [⟨IoEmitter.get_channel e, serializeUnwrap g e.opts (RequestType.DelSockets rooms)⟩])
    ∧ IoEmitter.disconnect e driver g
      = (driver (IoEmitter.get_channel e)
          (serializeUnwrap g e.opts RequestType.DisconnectSockets),
        [⟨IoEmitter.get_channel e, serializeUnwrap g e.opts RequestType.DisconnectSockets⟩])
    ∧ (Request.toRaw (Request.new g (RequestType.AddSockets rooms) e.opts).1).rooms = some rooms
    ∧ (Request.toRaw (Request.new g (RequestType.DelSockets rooms) e.opts).1).rooms = some rooms
    ∧ (Request.new g (RequestType.AddSockets rooms) e.opts).1.type
      = RequestType.AddSockets rooms
    ∧ (Request.new g (RequestType.DelSockets rooms) e.opts).1.type
      = RequestType.DelSockets rooms :=
  ⟨rfl, rfl, rfl, rfl, rfl, rfl, rfl⟩

/-- Claim C9: a default-constructed builder has namespace /, empty
inclusion and exclusion sets, no custom prefix, the Broadcast flag set in
its targeting options, and the default parser. -/
theorem C9_default_builder :
    IoEmitter.new = IoEmitter.default
    ∧ IoEmitter.default.ns = "/"
    ∧ IoEmitter.default.opts.rooms = ∅
    ∧ IoEmitter.default.opts.except = ∅
    ∧ IoEmitter.default.prefixOpt = none
    ∧ IoEmitter.default.opts.flags = {BroadcastFlags.Broadcast}
    ∧ BroadcastFlags.Broadcast ∈ IoEmitter.default.opts.flags
    ∧ IoEmitter.default.parser = Parser.Common := by
  refine ⟨rfl, rfl, rfl, rfl, rfl, ?_, ?_, rfl⟩ <;> decide

/-- Claim C10: each configuration setter changes only its own field: to,
within and except leave the namespace, prefix and parser unchanged (and
to/within leave the exclusion set, flags and identifiers unchanged,
except leaves the inclusion set, flags and identifiers unchanged); of
changes only the namespace; the prefix setter changes only the prefix. -/
theorem C10_setter_frame (e : IoEmitter) (rooms : List Room) (n p : String) :
    ((e.to rooms).ns = e.ns ∧ (e.to rooms).prefixOpt = e.prefixOpt
      ∧ (e.to rooms).parser = e.parser ∧ (e.to rooms).opts.except = e.opts.except
      ∧ (e.to rooms).opts.flags = e.opts.flags ∧ (e.to rooms).opts.sid = e.opts.sid
      ∧ (e.to rooms).opts.server_id = e.opts.server_id)
    ∧ e.within rooms = e.to rooms
    ∧ ((IoEmitter.except e rooms).ns = e.ns
      ∧ (IoEmitter.except e rooms).prefixOpt = e.prefixOpt
      ∧ (IoEmitter.except e rooms).parser = e.parser
      ∧ (IoEmitter.except e rooms).opts.rooms = e.opts.rooms
      ∧ (IoEmitter.except e rooms).opts.flags = e.opts.flags
      ∧ (IoEmitter.except e rooms).opts.sid = e.opts.sid
      ∧ (IoEmitter.except e rooms).opts.server_id = e.opts.server_id)
    ∧ ((e.of n).opts = e.opts ∧ (e.of n).prefixOpt = e.prefixOpt
      ∧ (e.of n).parser = e.parser ∧ (e.of n).ns = n)
    ∧ ((e.prefixSet p).opts = e.opts ∧ (e.prefixSet p).ns = e.ns
      ∧ (e.prefixSet p).parser = e.parser ∧ (e.prefixSet p).prefixOpt = some p) :=
  ⟨⟨rfl, rfl, rfl, rfl, rfl, rfl, rfl⟩, rfl, ⟨rfl, rfl, rfl, rfl, rfl, rfl, rfl⟩,
    ⟨rfl, rfl, rfl, rfl⟩, ⟨rfl, rfl, rfl, rfl⟩⟩

end Emitter
